import Mathlib

/-!
Verification development for `src/python/usefull/dalee_cleanup.py`, a batch
webp-to-png converter.  The script is embedded shallowly:

* the filesystem is a list of existing paths (`FS`), directory listings are a
  function from a directory path to its entries;
* `ImageWriter` (sequential-numbering output writer) and the functions of
  `ImageSource` (scanner and destructive iterator) are translated directly
  from the Python source;
* unbounded loops (the `while` probe in `ImageWriter.__init__`, the
  self-recursion of `_generate_source_list`) take an explicit fuel argument
  and return `none` when the fuel is exhausted, so that genuine
  non-termination shows up as `none` for every fuel;
* image decoding (PIL) is an opaque collaborator: a function
  `FsPath -> Except String Img`.
-/

/-- A filesystem path, as the Python script handles it: a plain string. -/
abbrev FsPath := String

/-- The filesystem as far as `os.path.exists` / `os.remove` / writes are
concerned: the list of existing paths (set semantics via membership). -/
abbrev FS := List FsPath

/-- Python `os.path.join(a, b)` for a non-empty relative component: `a ++ "/" ++ b`. -/
def joinPath (a b : FsPath) : FsPath := a ++ "/" ++ b

/-- Creating a file on disk (`image.save`, `os.mkdir`). -/
def addFile (fs : FS) (p : FsPath) : FS := p :: fs

/-- Python `os.remove(p)`: the path no longer exists afterwards. -/
def removeFile (fs : FS) (p : FsPath) : FS := fs.filter (fun q => q ≠ p)

/-- One entry of `os.scandir`: its `name` and whether `os.path.isdir` holds. -/
structure Entry where
  name : String
  isDir : Bool
deriving DecidableEq, Repr

/-- A decoded in-memory image (PIL `Image` after `.convert('RGB')`); the
pixel contents are opaque, only the origin path is tracked. -/
structure Img where
  src : FsPath
deriving DecidableEq, Repr

/-! ### Decimal formatting: the Python format string `03d` -/

/-- The ASCII character of a decimal digit `d < 10`. -/
def digitChar (d : Nat) : Char := Char.ofNat (48 + d)

/-- Decimal digits of `n`, most significant first; `fuel`-bounded version of
the usual div-10 recursion (any `fuel > n` is enough). -/
def natDigitsAux : Nat → Nat → List Char
  | 0, _ => []
  | fuel + 1, n =>
    if n < 10 then [digitChar n]
    else natDigitsAux fuel (n / 10) ++ [digitChar (n % 10)]

/-- Decimal digit characters of `n`, as Python `str(n)` renders a `Nat`. -/
def natDigits (n : Nat) : List Char := natDigitsAux (n + 1) n

/-- Python `str.format` with format spec `03d` on a non-negative integer:
the decimal digits, left-padded with `0` to a minimum width of 3. -/
def zeroPad3 (n : Nat) : String :=
  ⟨List.replicate (3 - (natDigits n).length) '0' ++ natDigits n⟩

/-- The constant `ImageWriter._IMAGE_FILENAME_FORMAT` applied to the counter: the format
string `03d` followed by `.png`. -/
def imageFilenameFormat (n : Nat) : String := zeroPad3 n ++ ".png"

/-! ### ImageWriter -/

/-- The state of an `ImageWriter` instance. -/
structure ImageWriter where
  _output_path : FsPath
  _image_count : Nat
deriving DecidableEq, Repr

/-- Method `ImageWriter._build_image_path`: join the output path with the formatted
current counter. -/
def ImageWriter.build_image_path (w : ImageWriter) : FsPath :=
  joinPath w._output_path (imageFilenameFormat w._image_count)

/-- Method `ImageWriter.write_image`: save the image at the built path (the file now
exists) and increment the counter.  Returns the new writer state, the new
filesystem and the path that was written. -/
def ImageWriter.write_image (w : ImageWriter) (_image : Img) (fs : FS) :
    ImageWriter × FS × FsPath :=
  let image_path := w.build_image_path
  (⟨w._output_path, w._image_count + 1⟩, addFile fs image_path, image_path)

/-- The probe loop of `ImageWriter.__init__`:
`while os.path.exists(self._build_image_path()): self._image_count += 1`.
Fuel-bounded; returns the first count `≥ count` whose built path does not
exist. -/
def writerInitLoop (fs : FS) (output_path : FsPath) : Nat → Nat → Option Nat
  | 0, _ => none
  | fuel + 1, count =>
    if joinPath output_path (imageFilenameFormat count) ∈ fs then
      writerInitLoop fs output_path fuel (count + 1)
    else
      some count

/-- Constructor `ImageWriter.__init__`: create the output directory when absent, then
probe counts starting from 1.  Returns the (possibly extended) filesystem,
the writer, and the reported number of pre-existing images
(`image_count - 1`). -/
def writerInit (fs : FS) (output_path : FsPath) (fuel : Nat) :
    Option (FS × ImageWriter × Nat) :=
  let fs1 := if output_path ∈ fs then fs else addFile fs output_path
  match writerInitLoop fs1 output_path fuel 1 with
  | none => none
  | some c => some (fs1, ⟨output_path, c⟩, c - 1)

/-- The writer state after `k` further `write_image` calls.  The writer
component of `write_image` does not depend on the image or the filesystem,
so dummy values are passed for them. -/
def iterWriter (w : ImageWriter) : Nat → ImageWriter
  | 0 => w
  | k + 1 => ((iterWriter w k).write_image ⟨""⟩ []).1

/-! ### ImageSource: scanning -/

/-- Python `name.split('.')` (split on every dot; always non-empty). -/
def splitDot : List Char → List (List Char)
  | [] => [[]]
  | c :: rest =>
    match splitDot rest with
    | [] => []
    | s :: ss => if c = '.' then [] :: s :: ss else (c :: s) :: ss

/-- The file filter of `_generate_source_list`, line 117:
`file.name.split('.')[-1] == 'webp'`. -/
def matchesInputExt (name : String) : Bool :=
  (splitDot name.data).getLast? == some "webp".data

/-- The hidden-directory test of line 114: `file.name[0] == '.'` (directory
names are never empty, so this is the first character being a dot). -/
def isHiddenName (name : String) : Bool := name.data.head? == some '.'

/-- Method `ImageSource._generate_source_list(source_path, recursive)`.
`listing` gives the `os.scandir` entries of a directory.  The loop body is a
fold over the entries; for a non-hidden directory entry under `recursive`,
the Python code recurses **on `source_path` itself** (line 115), not on the
subdirectory — this is reproduced verbatim.  Each recursive call consumes
one unit of fuel; `none` means the fuel ran out. -/
def generate_source_list (listing : FsPath → List Entry) :
    Nat → FsPath → Bool → Option (List FsPath)
  | 0, _, _ => none
  | fuel + 1, source_path, recursive =>
    (listing source_path).foldl
      (fun acc e =>
        match acc with
        | none => none
        | some l =>
          if e.isDir then
            if recursive && !(isHiddenName e.name) then
              match generate_source_list listing fuel source_path recursive with
              | none => none
              | some sub => some (l ++ sub)
            else some l
          else
            if matchesInputExt e.name then some (l ++ [joinPath source_path e.name])
            else some l)
      (some [])

/-- Constructor `ImageSource.__init__`: raise `OSError` when the source path does not
exist, otherwise build the source list.  The outer `none` is fuel
exhaustion of the scan. -/
def imageSourceInit (fs : FS) (listing : FsPath → List Entry) (fuel : Nat)
    (source_path : FsPath) (destructive recursive : Bool) :
    Option (Except String (List FsPath × Bool)) :=
  if source_path ∈ fs then
    (generate_source_list listing fuel source_path recursive).map
      (fun l => .ok (l, destructive))
  else
    some (.error ("Source path " ++ source_path ++ " do not exist."))

/-! ### ImageSource: iteration -/

/-- Method `ImageSource.__next__`: pop the last path of the source list
(`list.pop()`), decode it, and in destructive mode remove the source file
after a successful decode.  Returns the outcome (`.ok none` is
`StopIteration`), the remaining list and the filesystem.  On a decode error
the exception propagates with the list already popped and the filesystem
untouched. -/
def sourceNext (decode : FsPath → Except String Img) (destructive : Bool)
    (l : List FsPath) (fs : FS) : Except String (Option Img) × List FsPath × FS :=
  match l.getLast? with
  | none => (.ok none, l, fs)
  | some path =>
    match decode path with
    | .error e => (.error e, l.dropLast, fs)
    | .ok img =>
      (.ok (some img), l.dropLast, if destructive then removeFile fs path else fs)

/-- The driver loop of `main` over the source list in consumption order
(`__next__` pops from the end, so `runLoop` below reverses first): decode
one path, remove it in destructive mode, write the image, continue. -/
def runLoopRev (decode : FsPath → Except String Img) (destructive : Bool) :
    ImageWriter → List FsPath → FS → Except String (ImageWriter × FS)
  | w, [], fs => .ok (w, fs)
  | w, path :: rest, fs =>
    match decode path with
    | .error e => .error e
    | .ok img =>
      let fs1 := if destructive then removeFile fs path else fs
      let r := w.write_image img fs1
      runLoopRev decode destructive r.1 rest r.2.1

/-- The driver statement `for image in sources: writer.write_image(image)` with the source list
as built by the scan (consumed from the end, hence the reversal). -/
def runLoop (decode : FsPath → Except String Img) (destructive : Bool)
    (w : ImageWriter) (l : List FsPath) (fs : FS) :
    Except String (ImageWriter × FS) :=
  runLoopRev decode destructive w l.reverse fs

/-- Function `main(args)`: construct the `ImageSource`, construct the `ImageWriter`,
then drain the source through the writer.  `none` means a fuel bound was
hit (scan divergence or probe fuel). -/
def mainRun (fs : FS) (listing : FsPath → List Entry) (scanFuel probeFuel : Nat)
    (decode : FsPath → Except String Img) (source_path output_path : FsPath)
    (destructive recursive : Bool) :
    Option (Except String (ImageWriter × FS)) :=
  match imageSourceInit fs listing scanFuel source_path destructive recursive with
  | none => none
  | some (.error e) => some (.error e)
  | some (.ok (srcList, dest)) =>
    match writerInit fs output_path probeFuel with
    | none => none
    | some (fs1, w, _) => some (runLoop decode dest w srcList fs1)

example : natDigits 0 = ['0'] := by decide
example : zeroPad3 7 = "007" := by decide
example : zeroPad3 42 = "042" := by decide
example : zeroPad3 123 = "123" := by decide
example : zeroPad3 1234 = "1234" := by decide
example : imageFilenameFormat 3 = "003.png" := by decide
example : matchesInputExt "a.webp" = true := by decide
example : matchesInputExt "x.WEBP" = false := by decide
example : matchesInputExt "x.webp.bak" = false := by decide
example : matchesInputExt "webp" = true := by decide
example : isHiddenName ".git" = true := by decide
example : writerInitLoop ["out/001.png", "out/003.png"] "out" 10 1 = some 2 := by decide

/-! ### Arithmetic facts about the filename format -/

/-- Value of a list of decimal digit characters (inverse of rendering). -/
def digitsVal (cs : List Char) : Nat :=
  cs.foldl (fun a c => a * 10 + (c.toNat - 48)) 0

theorem digitChar_toNat {d : Nat} (h : d < 10) : (digitChar d).toNat = 48 + d := by
  interval_cases d <;> rfl

theorem digitsVal_append_digit (cs : List Char) (c : Char) :
    digitsVal (cs ++ [c]) = digitsVal cs * 10 + (c.toNat - 48) := by
  simp [digitsVal, List.foldl_append]

theorem digitsVal_natDigitsAux : ∀ fuel n, n < fuel →
    digitsVal (natDigitsAux fuel n) = n := by
  intro fuel
  induction fuel with
  | zero => intro n h; omega
  | succ f ih =>
    intro n h
    by_cases h10 : n < 10
    · simp only [natDigitsAux, if_pos h10, digitsVal, List.foldl_cons, List.foldl_nil]
      rw [digitChar_toNat h10]
      omega
    · have hn0 : 0 < n := by omega
      have hdiv : n / 10 < f := by
        have := Nat.div_lt_self hn0 (by omega : 1 < 10)
        omega
      simp only [natDigitsAux, if_neg h10]
      rw [digitsVal_append_digit, ih _ hdiv, digitChar_toNat (Nat.mod_lt n (by omega))]
      omega

theorem digitsVal_natDigits (n : Nat) : digitsVal (natDigits n) = n :=
  digitsVal_natDigitsAux (n + 1) n (Nat.lt_succ_self n)

theorem digitsVal_replicate_zero (k : Nat) (cs : List Char) :
    digitsVal (List.replicate k '0' ++ cs) = digitsVal cs := by
  induction k with
  | zero => simp
  | succ m ih =>
    simpa [digitsVal, List.replicate_succ] using ih

theorem digitsVal_zeroPad3 (n : Nat) : digitsVal (zeroPad3 n).data = n := by
  show digitsVal (List.replicate (3 - (natDigits n).length) '0' ++ natDigits n) = n
  rw [digitsVal_replicate_zero, digitsVal_natDigits]

theorem zeroPad3_injective {m n : Nat} (h : zeroPad3 m = zeroPad3 n) : m = n := by
  have := congrArg (fun s => digitsVal s.data) h
  simpa [digitsVal_zeroPad3] using this

theorem imageFilenameFormat_injective {m n : Nat}
    (h : imageFilenameFormat m = imageFilenameFormat n) : m = n := by
  have hd := congrArg String.data h
  simp only [imageFilenameFormat, String.data_append] at hd
  exact zeroPad3_injective (String.ext (List.append_cancel_right hd))

theorem joinPath_inj_right {a b c : FsPath} (h : joinPath a b = joinPath a c) :
    b = c := by
  have hd := congrArg String.data h
  simp only [joinPath, String.data_append, List.append_assoc] at hd
  exact String.ext (List.append_cancel_left (List.append_cancel_left hd))

theorem joinPath_data (a b : FsPath) :
    (joinPath a b).data = a.data ++ ('/' :: b.data) := by
  have : (joinPath a b).data = a.data ++ "/".data ++ b.data := by
    simp [joinPath, String.data_append]
  simpa using this

theorem build_image_path_inj {o : FsPath} {m n : Nat}
    (h : ImageWriter.build_image_path ⟨o, m⟩ = ImageWriter.build_image_path ⟨o, n⟩) :
    m = n :=
  imageFilenameFormat_injective (joinPath_inj_right h)

/-! ### Properties of the writer initialization probe -/

theorem writerInitLoop_spec (fs : FS) (out : FsPath) :
    ∀ fuel i c, writerInitLoop fs out fuel i = some c →
      i ≤ c ∧ joinPath out (imageFilenameFormat c) ∉ fs ∧
      ∀ j, i ≤ j → j < c → joinPath out (imageFilenameFormat j) ∈ fs := by
  intro fuel
  induction fuel with
  | zero => intro i c h; simp [writerInitLoop] at h
  | succ f ih =>
    intro i c h
    by_cases hmem : joinPath out (imageFilenameFormat i) ∈ fs
    · rw [writerInitLoop, if_pos hmem] at h
      obtain ⟨hle, hfree, hall⟩ := ih (i + 1) c h
      refine ⟨by omega, hfree, ?_⟩
      intro j hj1 hj2
      rcases Nat.eq_or_lt_of_le hj1 with heq | hlt
      · exact heq ▸ hmem
      · exact hall j hlt hj2
    · rw [writerInitLoop, if_neg hmem] at h
      obtain rfl : i = c := by simpa using h
      exact ⟨le_refl i, hmem, fun j h1 h2 => absurd (lt_of_le_of_lt h1 h2) (lt_irrefl i)⟩

theorem iterWriter_eq (w : ImageWriter) (k : Nat) :
    iterWriter w k = ⟨w._output_path, w._image_count + k⟩ := by
  induction k with
  | zero => rfl
  | succ m ih =>
    simp only [iterWriter, ih, ImageWriter.write_image]
    exact congrArg _ (by omega)

/-- C5: constructing an `ImageWriter` over an existing output directory
probes candidate paths at index 1, 2, 3, … (zero-padded 3-digit names with
the target extension) until the first non-existing one; that index becomes
the next-to-write counter, and the reported number of pre-existing images
equals the counter minus one. -/
theorem c5_initial_counter (fs fs' : FS) (out : FsPath) (fuel : Nat)
    (w : ImageWriter) (rep : Nat)
    (hdir : out ∈ fs)
    (h : writerInit fs out fuel = some (fs', w, rep)) :
    fs' = fs ∧ w._output_path = out ∧ 1 ≤ w._image_count ∧
    joinPath out (imageFilenameFormat w._image_count) ∉ fs ∧
    (∀ j, 1 ≤ j → j < w._image_count → joinPath out (imageFilenameFormat j) ∈ fs) ∧
    rep = w._image_count - 1 := by
  simp only [writerInit, if_pos hdir] at h
  cases hL : writerInitLoop fs out fuel 1 with
  | none => rw [hL] at h; exact absurd h (by simp)
  | some c =>
    rw [hL] at h
    simp only [Option.some.injEq, Prod.mk.injEq] at h
    obtain ⟨rfl, rfl, rfl⟩ := h
    obtain ⟨h1, h2, h3⟩ := writerInitLoop_spec fs out fuel 1 c hL
    exact ⟨rfl, rfl, h1, h2, h3, rfl⟩

theorem c5_initial_counter_witness :
    ("out" ∈ (["out", "out/001.png", "out/002.png"] : FS)) ∧
    (writerInit ["out", "out/001.png", "out/002.png"] "out" 10 =
      some (["out", "out/001.png", "out/002.png"], ⟨"out", 3⟩, 2)) ∧
    (joinPath "out" (imageFilenameFormat 3) ∉ (["out", "out/001.png", "out/002.png"] : FS)) := by
  refine ⟨by decide, by decide, ?_⟩
  have h := c5_initial_counter ["out", "out/001.png", "out/002.png"]
    ["out", "out/001.png", "out/002.png"] "out" 10 ⟨"out", 3⟩ 2 (by decide) (by decide)
  exact h.2.2.2.1

/-- C1 is false as stated: when the pre-existing outputs have a gap
(`001.png` and `003.png` present, `002.png` absent), the writer starts its
counter at 2, and its second `write_image` call targets `out/003.png`,
a path that already existed on disk at construction time. -/
theorem c1_reuse_counterexample :
    (writerInit ["out", "out/001.png", "out/003.png"] "out" 10 =
      some (["out", "out/001.png", "out/003.png"], ⟨"out", 2⟩, 1)) ∧
    ((ImageWriter.write_image ⟨"out", 2⟩ ⟨"i1"⟩
        ["out", "out/001.png", "out/003.png"]).2.2 = "out/002.png") ∧
    ((ImageWriter.write_image
        (ImageWriter.write_image ⟨"out", 2⟩ ⟨"i1"⟩
          ["out", "out/001.png", "out/003.png"]).1 ⟨"i2"⟩
        (ImageWriter.write_image ⟨"out", 2⟩ ⟨"i1"⟩
          ["out", "out/001.png", "out/003.png"]).2.1).2.2 = "out/003.png") ∧
    "out/003.png" ∈ (["out", "out/001.png", "out/003.png"] : FS) := by
  decide

/-- C1 (amended): the claim holds when the pre-existing numbered outputs
have no gaps.  Precisely: starting from the probe-determined counter `c₀`,
if no formatted output path with index `c₀ … c₀ + K` exists on disk at
construction, then none of the first `K + 1` writes targets a path that
existed at construction, and no two writes within the writer's lifetime
ever target the same path (the counter only increases and the formatted
names are injective). -/
theorem c1_no_reuse_amended (fs : FS) (out : FsPath) (fuel c₀ K : Nat)
    (_hinit : writerInitLoop fs out fuel 1 = some c₀)
    (hnogap : ∀ j ∈ List.range' c₀ (K + 1),
      joinPath out (imageFilenameFormat j) ∉ fs) :
    (∀ k ∈ List.range (K + 1), (iterWriter ⟨out, c₀⟩ k).build_image_path ∉ fs) ∧
    (∀ k₁ k₂ : Nat, k₁ ≠ k₂ →
      (iterWriter ⟨out, c₀⟩ k₁).build_image_path ≠
        (iterWriter ⟨out, c₀⟩ k₂).build_image_path) := by
  constructor
  · intro k hk
    rw [List.mem_range] at hk
    rw [iterWriter_eq]
    exact hnogap (c₀ + k) (List.mem_range'_1.mpr ⟨Nat.le_add_right _ _, by omega⟩)
  · intro k₁ k₂ hne heq
    rw [iterWriter_eq, iterWriter_eq] at heq
    exact hne (Nat.add_left_cancel (build_image_path_inj heq))

theorem c1_no_reuse_amended_witness :
    (writerInitLoop ["out", "out/001.png", "out/002.png"] "out" 10 1 = some 3) ∧
    (∀ j ∈ List.range' 3 3, joinPath "out" (imageFilenameFormat j) ∉
      (["out", "out/001.png", "out/002.png"] : FS)) ∧
    (∀ k ∈ List.range 3,
      (iterWriter ⟨"out", 3⟩ k).build_image_path ∉
        (["out", "out/001.png", "out/002.png"] : FS)) := by
  refine ⟨by decide, by decide, ?_⟩
  exact (c1_no_reuse_amended ["out", "out/001.png", "out/002.png"] "out" 10 3 2
    (by decide) (by decide)).1

/-! ### Properties of the directory scan -/

theorem foldl_step_none {α β : Type} (f : Option α → β → Option α)
    (hf : ∀ b, f none b = none) (es : List β) : es.foldl f none = none := by
  induction es with
  | nil => rfl
  | cons e es ih => rw [List.foldl_cons, hf e]; exact ih

theorem foldl_none_of_trigger {α β : Type} (f : Option α → β → Option α)
    (P : β → Prop) (hf : ∀ b, f none b = none)
    (hP : ∀ a b, P b → f (some a) b = none) :
    ∀ (es : List β) (a : α), (∃ b ∈ es, P b) → es.foldl f (some a) = none := by
  intro es
  induction es with
  | nil =>
    rintro a ⟨b, hb, _⟩
    cases hb
  | cons e es ih =>
    rintro a ⟨b, hb, hPb⟩
    rcases List.mem_cons.mp hb with rfl | hbes
    · rw [List.foldl_cons, hP a b hPb]
      exact foldl_step_none f hf es
    · rw [List.foldl_cons]
      cases hfe : f (some a) e with
      | none => exact foldl_step_none f hf es
      | some a2 => exact ih a2 ⟨b, hbes, hPb⟩

/-- The core of the recursion defect: as soon as the scanned directory has a
non-hidden subdirectory entry, a recursive scan recurses on the very same
directory, so it exhausts any fuel: the Python original never terminates. -/
theorem generate_source_list_none (listing : FsPath → List Entry) (sp : FsPath)
    (htrig : ∃ e ∈ listing sp, e.isDir = true ∧ isHiddenName e.name = false) :
    ∀ fuel, generate_source_list listing fuel sp true = none := by
  intro fuel
  induction fuel with
  | zero => rfl
  | succ f ih =>
    rw [generate_source_list]
    apply foldl_none_of_trigger _
      (fun e => e.isDir = true ∧ isHiddenName e.name = false)
    · intro b; rfl
    · rintro a b ⟨hd, hh⟩
      simp [hd, hh, ih]
    · exact htrig

/-- A flat-directory listing: the source tree of the concrete scenarios. -/
def listingFlat : FsPath → List Entry := fun p =>
  if p = "src" then [⟨"a.webp", false⟩, ⟨"b.webp", false⟩, ⟨"readme.txt", false⟩]
  else []

/-- A source tree with one non-hidden subdirectory holding one webp file. -/
def listingRec : FsPath → List Entry := fun p =>
  if p = "src" then [⟨"sub", true⟩]
  else if p = "src/sub" then [⟨"a.webp", false⟩]
  else []

/-- C3: whenever the source directory has at least one non-hidden
subdirectory entry, `_generate_source_list` with `recursive=True` is not
total: the recursive call re-scans the top-level source path, so the scan
fails to complete for every fuel bound. -/
theorem c3_nontermination (listing : FsPath → List Entry) (sp : FsPath)
    (htrig : ∃ e ∈ listing sp, e.isDir = true ∧ isHiddenName e.name = false) :
    ∀ fuel, generate_source_list listing fuel sp true = none :=
  generate_source_list_none listing sp htrig

theorem c3_nontermination_witness :
    (∃ e ∈ listingRec "src", e.isDir = true ∧ isHiddenName e.name = false) ∧
    generate_source_list listingRec 5 "src" true = none :=
  ⟨by decide, c3_nontermination listingRec "src" (by decide) 5⟩

/-- C2 (the code defect at the failing input): the claimed recursive
inclusion contract fails on the code.  With source tree
`src/sub/a.webp` (`sub` non-hidden) and recursion enabled, the scan
diverges for every fuel bound — `src/sub/a.webp` is never included because
line 115 recurses on the top-level `source_path` instead of the
subdirectory. -/
theorem c2_recursive_descent_bug :
    ∀ fuel, generate_source_list listingRec fuel "src" true = none :=
  fun fuel => generate_source_list_none listingRec "src" (by decide) fuel

theorem foldl_flat_scan (listing : FsPath → List Entry) (fuel : Nat)
    (sp : FsPath) (recursive : Bool) :
    ∀ es : List Entry, (∀ e ∈ es, e.isDir = false) → ∀ l : List FsPath,
      es.foldl
        (fun acc e =>
          match acc with
          | none => none
          | some l =>
            if e.isDir then
              if recursive && !(isHiddenName e.name) then
                match generate_source_list listing fuel sp recursive with
                | none => none
                | some sub => some (l ++ sub)
              else some l
            else
              if matchesInputExt e.name then some (l ++ [joinPath sp e.name])
              else some l)
        (some l) =
      some (l ++ (es.filter (fun e => matchesInputExt e.name)).map
        (fun e => joinPath sp e.name)) := by
  intro es
  induction es with
  | nil => intro _ l; simp
  | cons e es ih =>
    intro hflat l
    have hd : e.isDir = false := hflat e (List.mem_cons_self e es)
    have htail : ∀ x ∈ es, x.isDir = false :=
      fun x hx => hflat x (List.mem_cons_of_mem e hx)
    rw [List.foldl_cons]
    by_cases hm : matchesInputExt e.name
    · simp only [hd, hm, Bool.false_eq_true, if_false, if_true]
      rw [ih htail (l ++ [joinPath sp e.name])]
      simp [List.filter_cons, hm, hd]
    · simp only [hd, hm, Bool.false_eq_true, if_false]
      rw [ih htail l]
      simp [List.filter_cons, hm, hd]

/-- On a directory whose entries are all plain files, the scan returns
exactly the matching entries' joined paths, in listing order. -/
theorem source_scan_flat (listing : FsPath → List Entry) (fuel : Nat)
    (sp : FsPath) (recursive : Bool)
    (hflat : ∀ e ∈ listing sp, e.isDir = false) :
    generate_source_list listing (fuel + 1) sp recursive =
      some (((listing sp).filter (fun e => matchesInputExt e.name)).map
        (fun e => joinPath sp e.name)) := by
  rw [generate_source_list]
  simpa using foldl_flat_scan listing fuel sp recursive (listing sp) hflat []

/-- C4: a scanned file entry is recorded as a source path iff the final
dot-segment of its name is exactly the lowercase string webp; in
particular, `x.WEBP` (uppercase) and `x.webp.bak` are excluded while
`x.webp` is included. -/
theorem c4_extension_filter (listing : FsPath → List Entry) (fuel : Nat)
    (sp : FsPath) (recursive : Bool) (name : String) (l : List FsPath)
    (hflat : ∀ e ∈ listing sp, e.isDir = false)
    (hmem : (⟨name, false⟩ : Entry) ∈ listing sp)
    (h : generate_source_list listing (fuel + 1) sp recursive = some l) :
    (joinPath sp name ∈ l ↔ (splitDot name.data).getLast? = some "webp".data) ∧
    matchesInputExt "x.WEBP" = false ∧ matchesInputExt "x.webp.bak" = false ∧
    matchesInputExt "x.webp" = true := by
  rw [source_scan_flat listing fuel sp recursive hflat] at h
  obtain rfl : l = ((listing sp).filter (fun e => matchesInputExt e.name)).map
      (fun e => joinPath sp e.name) := by
    simpa using h.symm
  refine ⟨⟨?_, ?_⟩, by decide, by decide, by decide⟩
  · intro hin
    obtain ⟨e, he, heq⟩ := List.mem_map.mp hin
    obtain ⟨_, hematch⟩ := List.mem_filter.mp he
    have hname : e.name = name := joinPath_inj_right heq
    rw [hname] at hematch
    simpa [matchesInputExt] using hematch
  · intro hmatch
    refine List.mem_map.mpr ⟨⟨name, false⟩, List.mem_filter.mpr ⟨hmem, ?_⟩, rfl⟩
    simpa [matchesInputExt] using hmatch

theorem c4_extension_filter_witness :
    (∀ e ∈ listingFlat "src", e.isDir = false) ∧
    ((⟨"a.webp", false⟩ : Entry) ∈ listingFlat "src") ∧
    (generate_source_list listingFlat 1 "src" false =
      some ["src/a.webp", "src/b.webp"]) ∧
    (joinPath "src" "a.webp" ∈ ["src/a.webp", "src/b.webp"] ↔
      (splitDot "a.webp".data).getLast? = some "webp".data) :=
  ⟨by decide, by decide, by decide,
    (c4_extension_filter listingFlat 0 "src" false "a.webp"
      ["src/a.webp", "src/b.webp"] (by decide) (by decide) (by decide)).1⟩

/-- A source directory holding a single file whose name is exactly webp,
with no dot at all. -/
def listingBare : FsPath → List Entry := fun p =>
  if p = "src" then [⟨"webp", false⟩] else []

/-- C10: a file named exactly webp — no dot, hence no extension — passes
the extension filter (splitting on the dot yields the whole name as the
final segment) and is recorded as a convertible source path. -/
theorem c10_extensionless_webp :
    matchesInputExt "webp" = true ∧
    generate_source_list listingBare 1 "src" false = some ["src/webp"] := by
  decide

/-! ### Properties of the driver loop -/

instance exceptDecEq {ε α : Type} [DecidableEq ε] [DecidableEq α] :
    DecidableEq (Except ε α)
  | .error e, .error f =>
    if h : e = f then .isTrue (h ▸ rfl)
    else .isFalse (fun hh => h (by cases hh; rfl))
  | .error _, .ok _ => .isFalse (fun hh => Except.noConfusion hh)
  | .ok _, .error _ => .isFalse (fun hh => Except.noConfusion hh)
  | .ok x, .ok y =>
    if h : x = y then .isTrue (h ▸ rfl)
    else .isFalse (fun hh => h (by cases hh; rfl))

/-- A decoder that always succeeds (the normal PIL behaviour on valid
input). -/
def decodeOk : FsPath → Except String Img := fun p => .ok ⟨p⟩

theorem not_mem_removeFile (fs : FS) (p : FsPath) : p ∉ removeFile fs p := by
  intro h
  have := List.mem_filter.mp h
  simp at this

theorem mem_removeFile_of_mem {fs : FS} {p q : FsPath} (h : p ∈ fs)
    (hne : p ≠ q) : p ∈ removeFile fs q := by
  exact List.mem_filter.mpr ⟨h, by simpa using hne⟩

theorem not_mem_removeFile_of_not_mem {fs : FS} {p q : FsPath} (h : p ∉ fs) :
    p ∉ removeFile fs q := fun hmem => h (List.mem_filter.mp hmem).1

/-- Paths never written and initially absent stay absent through the run. -/
theorem runLoopRev_not_mem (decode : FsPath → Except String Img) (dest : Bool) :
    ∀ (rl : List FsPath) (w w' : ImageWriter) (fs fs' : FS) (p : FsPath),
      p ∉ fs →
      (∀ n, p ≠ joinPath w._output_path (imageFilenameFormat n)) →
      runLoopRev decode dest w rl fs = .ok (w', fs') → p ∉ fs' := by
  intro rl
  induction rl with
  | nil =>
    intro w w' fs fs' p hp _ h
    simp only [runLoopRev, Except.ok.injEq, Prod.mk.injEq] at h
    obtain ⟨rfl, rfl⟩ := h
    exact hp
  | cons q rest ih =>
    intro w w' fs fs' p hp hn h
    cases hdq : decode q with
    | error e => simp [runLoopRev, hdq] at h
    | ok img =>
      simp only [runLoopRev, hdq] at h
      refine ih _ w' _ fs' p ?_ ?_ h
      · have hp1 : p ∉ (if dest then removeFile fs q else fs) := by
          by_cases hd : dest
          · simp only [hd, if_true]
            exact not_mem_removeFile_of_not_mem hp
          · simpa [hd] using hp
        intro hmem
        rcases List.mem_cons.mp hmem with heq | hmem1
        · exact hn w._image_count heq
        · exact hp1 hmem1
      · exact hn

/-- With the destructive flag set, a successful run deletes every consumed
source path, provided no source path collides with a writer target. -/
theorem runLoopRev_destructive (decode : FsPath → Except String Img) :
    ∀ (rl : List FsPath) (w w' : ImageWriter) (fs fs' : FS),
      (∀ p ∈ rl, ∀ n, p ≠ joinPath w._output_path (imageFilenameFormat n)) →
      runLoopRev decode true w rl fs = .ok (w', fs') →
      ∀ p ∈ rl, p ∉ fs' := by
  intro rl
  induction rl with
  | nil => intro w w' fs fs' _ _ p hp; cases hp
  | cons q rest ih =>
    intro w w' fs fs' hno h p hp
    cases hdq : decode q with
    | error e => simp [runLoopRev, hdq] at h
    | ok img =>
      simp only [runLoopRev, hdq, if_true] at h
      rcases List.mem_cons.mp hp with rfl | hprest
      · refine runLoopRev_not_mem decode true rest _ w' _ fs' p ?_ ?_ h
        · intro hmem
          rcases List.mem_cons.mp hmem with heq | hmem1
          · exact hno p (List.mem_cons_self p rest) w._image_count heq
          · exact not_mem_removeFile fs p hmem1
        · exact hno p (List.mem_cons_self p rest)
      · refine ih _ w' _ fs' ?_ h p hprest
        exact fun x hx => hno x (List.mem_cons_of_mem q hx)

/-- With the destructive flag unset, a successful run never removes a path:
the filesystem only grows. -/
theorem runLoopRev_nondestructive (decode : FsPath → Except String Img) :
    ∀ (rl : List FsPath) (w w' : ImageWriter) (fs fs' : FS),
      runLoopRev decode false w rl fs = .ok (w', fs') →
      ∀ p ∈ fs, p ∈ fs' := by
  intro rl
  induction rl with
  | nil =>
    intro w w' fs fs' h p hp
    simp only [runLoopRev, Except.ok.injEq, Prod.mk.injEq] at h
    obtain ⟨rfl, rfl⟩ := h
    exact hp
  | cons q rest ih =>
    intro w w' fs fs' h p hp
    cases hdq : decode q with
    | error e => simp [runLoopRev, hdq] at h
    | ok img =>
      simp only [runLoopRev, hdq, if_false] at h
      exact ih _ w' _ fs' h p (List.mem_cons_of_mem _ hp)

/-- A successful run advances the counter by exactly the number of
consumed source paths: one write per input. -/
theorem runLoopRev_count (decode : FsPath → Except String Img) (dest : Bool) :
    ∀ (rl : List FsPath) (w w' : ImageWriter) (fs fs' : FS),
      runLoopRev decode dest w rl fs = .ok (w', fs') →
      w'._image_count = w._image_count + rl.length := by
  intro rl
  induction rl with
  | nil =>
    intro w w' fs fs' h
    simp only [runLoopRev, Except.ok.injEq, Prod.mk.injEq] at h
    obtain ⟨rfl, rfl⟩ := h
    simp
  | cons q rest ih =>
    intro w w' fs fs' h
    cases hdq : decode q with
    | error e => simp [runLoopRev, hdq] at h
    | ok img =>
      simp only [runLoopRev, hdq] at h
      have := ih _ w' _ fs' h
      simp only [ImageWriter.write_image] at this
      simp [this, List.length_cons]
      omega

/-- Two paths whose first characters differ are distinct; in particular a
path under `src/` is never a writer target under `out/`. -/
theorem ne_joinPath_of_head {p a : FsPath} (b : FsPath) {c c2 : Char}
    (hp : p.data.head? = some c) (ha : a.data.head? = some c2)
    (hne : c ≠ c2) : p ≠ joinPath a b := by
  intro h
  rw [h, joinPath_data] at hp
  cases hd : a.data with
  | nil => rw [hd] at ha; simp at ha
  | cons x xs =>
    rw [hd] at ha hp
    simp only [List.head?_cons, Option.some.injEq] at ha
    simp only [List.cons_append, List.head?_cons, Option.some.injEq] at hp
    exact hne (hp.symm.trans ha)

/-- C6: on a run that completes successfully with the destructive flag set,
no originally-matched source path remains on disk afterwards; with the flag
unset, every originally-matched source path that was on disk remains there.
(The proviso `hout` — no source path is itself a formatted writer target —
holds in every real run since sources end in `.webp` and targets in
`.png`.) -/
theorem c6_destructive_flag (decode : FsPath → Except String Img)
    (w : ImageWriter) (l : List FsPath) (fs : FS)
    (hout : ∀ p ∈ l, ∀ n, p ≠ joinPath w._output_path (imageFilenameFormat n)) :
    (∀ w' fs', runLoop decode true w l fs = .ok (w', fs') → ∀ p ∈ l, p ∉ fs') ∧
    (∀ w' fs', runLoop decode false w l fs = .ok (w', fs') →
      ∀ p ∈ l, p ∈ fs → p ∈ fs') := by
  constructor
  · intro w' fs' h p hp
    exact runLoopRev_destructive decode l.reverse w w' fs fs'
      (fun x hx => hout x (List.mem_reverse.mp hx)) h p (List.mem_reverse.mpr hp)
  · intro w' fs' h p _ hpfs
    exact runLoopRev_nondestructive decode l.reverse w w' fs fs' h p hpfs

theorem c6_destructive_flag_witness :
    (∀ p ∈ (["src/a.webp", "src/b.webp"] : List FsPath), ∀ n,
      p ≠ joinPath (ImageWriter._output_path ⟨"out", 1⟩) (imageFilenameFormat n)) ∧
    (runLoop decodeOk true ⟨"out", 1⟩ ["src/a.webp", "src/b.webp"]
        ["src", "src/a.webp", "src/b.webp"] =
      .ok (⟨"out", 3⟩, ["out/002.png", "out/001.png", "src"])) ∧
    ("src/a.webp" ∉ (["out/002.png", "out/001.png", "src"] : FS)) := by
  have hout : ∀ p ∈ (["src/a.webp", "src/b.webp"] : List FsPath), ∀ n,
      p ≠ joinPath (ImageWriter._output_path ⟨"out", 1⟩) (imageFilenameFormat n) := by
    intro p hp n
    rcases List.mem_cons.mp hp with rfl | hp1
    · exact ne_joinPath_of_head _ rfl rfl (by decide)
    · rcases List.mem_cons.mp hp1 with rfl | hp2
      · exact ne_joinPath_of_head _ rfl rfl (by decide)
      · cases hp2
  refine ⟨hout, by decide, ?_⟩
  exact (c6_destructive_flag decodeOk ⟨"out", 1⟩ ["src/a.webp", "src/b.webp"]
      ["src", "src/a.webp", "src/b.webp"] hout).1 ⟨"out", 3⟩
      ["out/002.png", "out/001.png", "src"] (by decide) "src/a.webp" (by decide)

/-- C7: a pull from the enumerator whose decode fails leaves the filesystem
(and hence the source file) untouched and propagates the decode error — in
destructive mode as well, the delete can only happen after a successful
decode. -/
theorem c7_delete_after_decode (decode : FsPath → Except String Img)
    (destructive : Bool) (l : List FsPath) (fs : FS) (p : FsPath) (e : String)
    (h1 : l.getLast? = some p) (h2 : decode p = .error e) :
    sourceNext decode destructive l fs = (.error e, l.dropLast, fs) := by
  simp [sourceNext, h1, h2]

theorem c7_delete_after_decode_witness :
    ((["src/a.webp"] : List FsPath).getLast? = some "src/a.webp") ∧
    ((fun _ : FsPath => (.error "decode failed" : Except String Img)) "src/a.webp"
      = .error "decode failed") ∧
    (sourceNext (fun _ => .error "decode failed") true ["src/a.webp"]
        ["src", "src/a.webp"] =
      (.error "decode failed", [], ["src", "src/a.webp"])) :=
  ⟨by decide, rfl,
    c7_delete_after_decode (fun _ => .error "decode failed") true
      ["src/a.webp"] ["src", "src/a.webp"] "src/a.webp" "decode failed"
      (by decide) rfl⟩

/-- C8: constructing an `ImageSource` over a missing source directory fails
with the OSError message, for every listing and fuel — before any scanning
is performed; over an existing directory it proceeds to the scan and
returns the scanned list. -/
theorem c8_missing_source_error (fs : FS) (listing : FsPath → List Entry)
    (fuel : Nat) (sp : FsPath) (destructive recursive : Bool) :
    (sp ∉ fs → imageSourceInit fs listing fuel sp destructive recursive =
      some (.error ("Source path " ++ sp ++ " do not exist."))) ∧
    (sp ∈ fs → ∀ l, generate_source_list listing fuel sp recursive = some l →
      imageSourceInit fs listing fuel sp destructive recursive =
        some (.ok (l, destructive))) := by
  constructor
  · intro hnot
    simp [imageSourceInit, hnot]
  · intro hmem l hscan
    simp [imageSourceInit, hmem, hscan]

theorem c8_missing_source_error_witness :
    ("src" ∉ (["other"] : FS)) ∧
    (imageSourceInit ["other"] listingFlat 1 "src" false false =
      some (.error "Source path src do not exist.")) :=
  ⟨by decide,
    (c8_missing_source_error ["other"] listingFlat 1 "src" false false).1
      (by decide)⟩

/-- C9: every successful run writes each consumed source exactly once (the
counter advances by exactly the length of the source list), and the
concrete flat scenario — sources a.webp, b.webp, readme.txt, empty output,
non-recursive, non-destructive — ends with exactly 001.png and 002.png in
the output directory, both webp sources still on disk and readme.txt
untouched and not copied. -/
theorem c9_flat_run :
    (∀ (decode : FsPath → Except String Img) (dest : Bool)
        (w w' : ImageWriter) (l : List FsPath) (fs fs' : FS),
      runLoop decode dest w l fs = .ok (w', fs') →
      w'._image_count = w._image_count + l.length) ∧
    (mainRun ["src", "src/a.webp", "src/b.webp", "src/readme.txt"] listingFlat
        1 10 decodeOk "src" "out" false false =
      some (.ok (⟨"out", 3⟩,
        ["out/002.png", "out/001.png", "out", "src", "src/a.webp",
          "src/b.webp", "src/readme.txt"]))) ∧
    ("out/001.png" ∈ (["out/002.png", "out/001.png", "out", "src",
        "src/a.webp", "src/b.webp", "src/readme.txt"] : FS) ∧
      "out/002.png" ∈ (["out/002.png", "out/001.png", "out", "src",
        "src/a.webp", "src/b.webp", "src/readme.txt"] : FS) ∧
      "out/003.png" ∉ (["out/002.png", "out/001.png", "out", "src",
        "src/a.webp", "src/b.webp", "src/readme.txt"] : FS) ∧
      "src/a.webp" ∈ (["out/002.png", "out/001.png", "out", "src",
        "src/a.webp", "src/b.webp", "src/readme.txt"] : FS) ∧
      "src/b.webp" ∈ (["out/002.png", "out/001.png", "out", "src",
        "src/a.webp", "src/b.webp", "src/readme.txt"] : FS) ∧
      "src/readme.txt" ∈ (["out/002.png", "out/001.png", "out", "src",
        "src/a.webp", "src/b.webp", "src/readme.txt"] : FS) ∧
      "out/readme.txt" ∉ (["out/002.png", "out/001.png", "out", "src",
        "src/a.webp", "src/b.webp", "src/readme.txt"] : FS)) := by
  refine ⟨?_, by decide, by decide⟩
  intro decode dest w w' l fs fs' h
  have := runLoopRev_count decode dest l.reverse w w' fs fs' h
  simpa [List.length_reverse] using this

theorem c9_flat_run_witness :
    (runLoop decodeOk false ⟨"out", 1⟩ ["src/a.webp", "src/b.webp"]
        ["out", "src", "src/a.webp", "src/b.webp", "src/readme.txt"] =
      .ok (⟨"out", 3⟩, ["out/002.png", "out/001.png", "out", "src",
        "src/a.webp", "src/b.webp", "src/readme.txt"])) ∧
    ((3 : Nat) = 1 + (["src/a.webp", "src/b.webp"] : List FsPath).length) :=
  ⟨by decide,
    c9_flat_run.1 decodeOk false ⟨"out", 1⟩ ⟨"out", 3⟩
      ["src/a.webp", "src/b.webp"]
      ["out", "src", "src/a.webp", "src/b.webp", "src/readme.txt"]
      ["out/002.png", "out/001.png", "out", "src", "src/a.webp",
        "src/b.webp", "src/readme.txt"] (by decide)⟩
